import Mathlib

/-!
Shallow embedding of the usage-metering and consultation-orchestration core
of the PeruCheck mobile client (src/lib/billing.ts and
src/app/(tabs)/index.tsx), together with theorems settling the frozen
claims about it.

Conventions of the embedding:
* Timestamps are integers counted in days.  The source stores ISO
  strings and compares them with `gte`; ISO-8601 strings of a fixed format
  compare lexicographically exactly as their instants compare, so an
  integer timeline is a faithful abstraction.  `changePlan` adds
  `duration_days` calendar days to "now", which is `now + d` on this
  timeline.
* Nullable columns (`T | null` in TypeScript) become `Option`.
* JavaScript truthiness tests on strings (`!s`) become emptiness tests;
  upstream JSON payloads, which the orchestrator treats as black-box values
  inspected only for truthiness, become the `Payload` record carrying an
  uninterpreted blob plus its JavaScript truthiness.
-/

namespace PeruCheck

/-- Row of the `plans` table (`PlanRow` in src/lib/billing.ts). -/
structure PlanRow where
  id : String
  name : String
  created_at : Option Int
  total_consultas : Option Int
  duration_days : Option Int
  price_pen : Option Int
deriving Repr, DecidableEq

/-- Row of the `user_credits` table (`UserCreditRow` in src/lib/billing.ts).
`total_consultas` is declared `number` in TypeScript, but
`getUsageSnapshot` reads it through the null-coalescing chain
`credit?.total_consultas ?? plan?.total_consultas ?? null`, so it is
modelled as optional to cover that code path. -/
structure UserCreditRow where
  id : String
  user_id : String
  plan_id : String
  total_consultas : Option Int
  consultas_usadas : Int
  valid_from : Option Int
  valid_until : Int
  created_at : Option Int
deriving Repr, DecidableEq

/-- Derived usage snapshot (`UsageSnapshot` in src/lib/billing.ts). -/
structure UsageSnapshot where
  plan : Option PlanRow
  credit : Option UserCreditRow
  creditsTotal : Option Int
  creditsUsed : Int
  creditsRemaining : Option Int
  validUntil : Option Int
deriving Repr, DecidableEq

/-- The snapshot returned when the client is unconfigured or the user id is
absent (the early return of `getUsageSnapshot`). -/
def defaultSnapshot : UsageSnapshot :=
  { plan := none, credit := none, creditsTotal := none, creditsUsed := 0,
    creditsRemaining := none, validUntil := none }

/-- Strict "comes earlier in descending `created_at` order" on the nullable
`created_at` column: Postgres sorts `NULLS FIRST` when descending, so a
null value precedes every non-null one, and non-null values compare by
instant, later first.  `createdDescLt a b` means `b` strictly precedes `a`
in that output order (i.e. `a` is strictly worse). -/
def createdDescLt : Option Int → Option Int → Bool
  | some _, none => true
  | none, none => false
  | none, some _ => false
  | some a, some b => decide (a < b)

/-- Non-strict version of `createdDescLt`. -/
def createdDescLe : Option Int → Option Int → Bool
  | _, none => true
  | none, some _ => false
  | some a, some b => decide (a ≤ b)

/-- `grantLt a b`: grant `b` strictly precedes grant `a` in the query's
`order('valid_until', desc).order('created_at', desc)` output, i.e. `b`
has a strictly later `valid_until`, or the same `valid_until` and a
strictly later (nulls-first) `created_at`. -/
def grantLt (a b : UserCreditRow) : Bool :=
  decide (a.valid_until < b.valid_until) ||
    (decide (a.valid_until = b.valid_until) && createdDescLt a.created_at b.created_at)

/-- Non-strict companion of `grantLt`. -/
def grantLe (a b : UserCreditRow) : Bool :=
  decide (a.valid_until < b.valid_until) ||
    (decide (a.valid_until = b.valid_until) && createdDescLe a.created_at b.created_at)

/-- One step of selecting the first row of the ordered query result: keep
the incumbent unless the candidate is strictly better. -/
def grantStep (best : Option UserCreditRow) (r : UserCreditRow) : Option UserCreditRow :=
  match best with
  | none => some r
  | some b => if grantLt b r then some r else some b

/-- The `user_credits` query of `getUsageSnapshot`:
`eq('user_id', userId)`, `gte('valid_until', now)`,
`order('valid_until', desc)`, `order('created_at', desc)`, `limit(1)`.
Selecting the first row of that ordered output is computing a maximum for
the descending lexicographic order; ties beyond both sort keys are broken
in favour of the earlier-scanned row, which models one legal database
execution for every scan (= insertion) order. -/
def selectActiveGrant (rows : List UserCreditRow) (userId : String) (now : Int) :
    Option UserCreditRow :=
  (rows.filter fun r => r.user_id == userId && decide (now ≤ r.valid_until)).foldl
    grantStep none

/-- Lookup of a plan by id (`eq('id', planId).maybeSingle()`). -/
def findPlan (plans : List PlanRow) (planId : String) : Option PlanRow :=
  plans.find? fun p => p.id == planId

/-- The snapshot computed from the fetched active grant (the tail of
`getUsageSnapshot` after the two queries):
`creditsTotal = credit?.total_consultas ?? plan?.total_consultas ?? null`,
`creditsUsed = credit?.consultas_usadas ?? 0`,
`creditsRemaining = creditsTotal != null ? max(0, total - used)
: hasCreditRow ? null : 0`. -/
def snapshotFor (plans : List PlanRow) (credit : Option UserCreditRow) : UsageSnapshot :=
  let plan : Option PlanRow :=
    match credit with
    | some c => findPlan plans c.plan_id
    | none => none
  let creditsTotal : Option Int :=
    match credit.bind (fun c => c.total_consultas) with
    | some t => some t
    | none => plan.bind (fun p => p.total_consultas)
  let creditsUsed : Int := (credit.map (fun c => c.consultas_usadas)).getD 0
  let creditsRemaining : Option Int :=
    match creditsTotal with
    | some t => some (max 0 (t - creditsUsed))
    | none => if credit.isSome then none else some 0
  { plan := plan, credit := credit, creditsTotal := creditsTotal,
    creditsUsed := creditsUsed, creditsRemaining := creditsRemaining,
    validUntil := credit.map (fun c => c.valid_until) }

/-- `getUsageSnapshot` (src/lib/billing.ts, lines 118-166).
`configured` models the nullable `supabase` client; `userId` models the
optional `userId` argument, with the empty string falsy as in
`if (!supabase || !userId)`.  A store read that errors surfaces as a null
`data`, which behaves exactly like a store containing no matching rows, so
it is covered by quantifying over `credits`. -/
def getUsageSnapshot (configured : Bool) (userId : Option String)
    (plans : List PlanRow) (credits : List UserCreditRow) (now : Int) : UsageSnapshot :=
  match configured, userId with
  | true, some uid =>
    if uid = "" then defaultSnapshot
    else snapshotFor plans (selectActiveGrant credits uid now)
  | _, _ => defaultSnapshot

/-- The row inserted into `user_credits` by `changePlan` once the plan
resolved: `total_consultas = plan.total_consultas ?? 0`,
`consultas_usadas = 0`, `valid_until = now + (duration_days ?? 30)` days.
`freshId` and `rowCreatedAt` stand for the database-generated `id` and
`created_at` columns. -/
def insertedGrantRow (userId planId : String) (plan : PlanRow) (now : Int)
    (freshId : String) (rowCreatedAt : Option Int) : UserCreditRow :=
  { id := freshId, user_id := userId, plan_id := planId,
    total_consultas := some (plan.total_consultas.getD 0),
    consultas_usadas := 0, valid_from := none,
    valid_until := now + plan.duration_days.getD 30, created_at := rowCreatedAt }

/-- `changePlan` (src/lib/billing.ts, lines 95-116).  Returns the new
contents of the `user_credits` table. -/
def changePlan (configured : Bool) (userId : String) (planId : String)
    (plans : List PlanRow) (credits : List UserCreditRow) (now : Int)
    (freshId : String) (rowCreatedAt : Option Int) : List UserCreditRow :=
  if !configured || userId = "" then credits
  else
    match findPlan plans planId with
    | none => credits
    | some plan =>
      credits ++ [insertedGrantRow userId planId plan now freshId rowCreatedAt]

/-! ### Order lemmas for the grant-selection comparison -/

theorem createdDescLe_refl (a : Option Int) : createdDescLe a a = true := by
  cases a <;> simp [createdDescLe]

theorem createdDescLe_of_lt {a b : Option Int} (h : createdDescLt a b = true) :
    createdDescLe a b = true := by
  cases a with
  | none => cases b <;> simp [createdDescLt] at h
  | some x =>
    cases b with
    | none => rfl
    | some y =>
      simp only [createdDescLt, decide_eq_true_eq] at h
      simp only [createdDescLe, decide_eq_true_eq]
      omega

theorem createdDescLe_of_not_lt {a b : Option Int} (h : createdDescLt b a = false) :
    createdDescLe a b = true := by
  cases a with
  | none =>
    cases b with
    | none => rfl
    | some y => simp [createdDescLt] at h
  | some x =>
    cases b with
    | none => rfl
    | some y =>
      simp only [createdDescLt, decide_eq_false_iff_not] at h
      simp only [createdDescLe, decide_eq_true_eq]
      omega

theorem createdDescLe_trans {a b c : Option Int} (h₁ : createdDescLe a b = true)
    (h₂ : createdDescLe b c = true) : createdDescLe a c = true := by
  cases c with
  | none => cases a <;> rfl
  | some z =>
    cases b with
    | none => simp [createdDescLe] at h₂
    | some y =>
      cases a with
      | none => simp [createdDescLe] at h₁
      | some x =>
        simp only [createdDescLe, decide_eq_true_eq] at h₁ h₂ ⊢
        omega

theorem grantLe_refl (a : UserCreditRow) : grantLe a a = true := by
  simp [grantLe, createdDescLe_refl]

theorem grantLe_of_lt {a b : UserCreditRow} (h : grantLt a b = true) :
    grantLe a b = true := by
  simp only [grantLt, Bool.or_eq_true, Bool.and_eq_true, decide_eq_true_eq] at h
  rcases h with h | ⟨h1, h2⟩
  · simp [grantLe, h]
  · simp [grantLe, h1, createdDescLe_of_lt h2]

theorem grantLe_of_not_lt {a b : UserCreditRow} (h : grantLt b a = false) :
    grantLe a b = true := by
  simp only [grantLt, Bool.or_eq_false_iff, Bool.and_eq_false_iff, decide_eq_false_iff_not,
    decide_eq_true_eq] at h
  obtain ⟨h1, h2⟩ := h
  rcases lt_trichotomy a.valid_until b.valid_until with hv | hv | hv
  · simp [grantLe, hv]
  · rcases h2 with h2 | h2
    · exact absurd hv.symm h2
    · simp [grantLe, hv, createdDescLe_of_not_lt h2]
  · exact absurd hv h1

theorem grantLe_trans {a b c : UserCreditRow} (h₁ : grantLe a b = true)
    (h₂ : grantLe b c = true) : grantLe a c = true := by
  simp only [grantLe, Bool.or_eq_true, Bool.and_eq_true, decide_eq_true_eq] at h₁ h₂ ⊢
  rcases h₁ with h₁ | ⟨h₁, h₁c⟩ <;> rcases h₂ with h₂ | ⟨h₂, h₂c⟩
  · exact Or.inl (h₁.trans h₂)
  · exact Or.inl (h₂ ▸ h₁)
  · exact Or.inl (h₁ ▸ h₂)
  · exact Or.inr ⟨h₁.trans h₂, createdDescLe_trans h₁c h₂c⟩

/-! ### Lemmas about the fold that selects the first ordered row -/

theorem foldl_grantStep_isSome (l : List UserCreditRow) (b : UserCreditRow) :
    (l.foldl grantStep (some b)).isSome = true := by
  induction l generalizing b with
  | nil => rfl
  | cons r t ih =>
    simp only [List.foldl_cons, grantStep]
    cases grantLt b r <;> simp only [if_true, if_false, Bool.false_eq_true] <;> exact ih _

theorem foldl_grantStep_mem (l : List UserCreditRow) :
    ∀ acc s, l.foldl grantStep acc = some s → acc = some s ∨ s ∈ l := by
  induction l with
  | nil => intro acc s h; exact Or.inl h
  | cons r t ih =>
    intro acc s h
    simp only [List.foldl_cons] at h
    rcases ih _ _ h with h' | h'
    · cases acc with
      | none =>
        simp only [grantStep, Option.some.injEq] at h'
        exact Or.inr (by simp [h'])
      | some b =>
        simp only [grantStep] at h'
        cases hlt : grantLt b r with
        | true =>
          rw [hlt] at h'
          simp only [if_true, Option.some.injEq] at h'
          exact Or.inr (by simp [h'])
        | false =>
          rw [hlt] at h'
          simp only [Bool.false_eq_true, if_false] at h'
          exact Or.inl h'
    · exact Or.inr (List.mem_cons_of_mem _ h')

theorem foldl_grantStep_acc_le (l : List UserCreditRow) :
    ∀ b s, l.foldl grantStep (some b) = some s → grantLe b s = true := by
  induction l with
  | nil =>
    intro b s h
    simp only [List.foldl_nil, Option.some.injEq] at h
    exact h ▸ grantLe_refl b
  | cons r t ih =>
    intro b s h
    simp only [List.foldl_cons, grantStep] at h
    cases hlt : grantLt b r with
    | true =>
      simp only [hlt, if_true] at h
      exact grantLe_trans (grantLe_of_lt hlt) (ih _ _ h)
    | false =>
      simp only [hlt, Bool.false_eq_true, if_false] at h
      exact ih _ _ h

theorem foldl_grantStep_le (l : List UserCreditRow) :
    ∀ acc g s, g ∈ l → l.foldl grantStep acc = some s → grantLe g s = true := by
  induction l with
  | nil => intro _ _ _ hg; exact absurd hg (List.not_mem_nil _)
  | cons r t ih =>
    intro acc g s hg h
    simp only [List.foldl_cons] at h
    rcases List.mem_cons.mp hg with hg | hg
    · subst hg
      have hstep : ∃ b1, grantStep acc g = some b1 ∧ grantLe g b1 = true := by
        cases acc with
        | none => exact ⟨g, rfl, grantLe_refl g⟩
        | some b =>
          cases hlt : grantLt b g with
          | true => exact ⟨g, by simp [grantStep, hlt], grantLe_refl g⟩
          | false => exact ⟨b, by simp [grantStep, hlt], grantLe_of_not_lt hlt⟩
      obtain ⟨b1, hb1, hle⟩ := hstep
      rw [hb1] at h
      exact grantLe_trans hle (foldl_grantStep_acc_le t _ _ h)
    · exact ih _ _ _ hg h

/-- C6: the active grant returned by the `user_credits` query is a grant of
the user that has not expired, and among the user's unexpired grants it
has the latest `valid_until`, tie-broken by latest (nulls-first)
`created_at`; moreover some grant is selected whenever an eligible one
exists.  All of this holds for every list of rows, hence for every
insertion order. -/
theorem selectActiveGrant_spec (rows : List UserCreditRow) (uid : String) (now : Int) :
    (∀ s, selectActiveGrant rows uid now = some s →
       s ∈ rows ∧ s.user_id = uid ∧ now ≤ s.valid_until ∧
       ∀ g ∈ rows, g.user_id = uid → now ≤ g.valid_until →
         g.valid_until ≤ s.valid_until ∧
         (g.valid_until = s.valid_until → createdDescLe g.created_at s.created_at = true)) ∧
    ((∃ g ∈ rows, g.user_id = uid ∧ now ≤ g.valid_until) →
       (selectActiveGrant rows uid now).isSome = true) := by
  constructor
  · intro s hs
    have hmem : s ∈ rows.filter fun r => r.user_id == uid && decide (now ≤ r.valid_until) := by
      rcases foldl_grantStep_mem _ _ _ hs with h | h
      · exact absurd h (by simp)
      · exact h
    have hs' := List.mem_filter.mp hmem
    have hsu : s.user_id = uid ∧ now ≤ s.valid_until := by
      have := hs'.2
      simp only [Bool.and_eq_true, beq_iff_eq, decide_eq_true_eq] at this
      exact this
    refine ⟨hs'.1, hsu.1, hsu.2, ?_⟩
    intro g hg hgu hgv
    have hgf : g ∈ rows.filter fun r => r.user_id == uid && decide (now ≤ r.valid_until) :=
      List.mem_filter.mpr ⟨hg, by simp [hgu, hgv]⟩
    have hle := foldl_grantStep_le _ _ _ _ hgf hs
    simp only [grantLe, Bool.or_eq_true, Bool.and_eq_true, decide_eq_true_eq] at hle
    rcases hle with h | ⟨h1, h2⟩
    · exact ⟨le_of_lt h, fun he => absurd he (ne_of_lt h)⟩
    · exact ⟨le_of_eq h1, fun _ => h2⟩
  · rintro ⟨g, hg, hgu, hgv⟩
    have hgf : g ∈ rows.filter fun r => r.user_id == uid && decide (now ≤ r.valid_until) :=
      List.mem_filter.mpr ⟨hg, by simp [hgu, hgv]⟩
    unfold selectActiveGrant
    rcases List.exists_cons_of_ne_nil (List.ne_nil_of_mem hgf) with ⟨r, t, heq⟩
    rw [heq]
    simp only [List.foldl_cons, grantStep]
    exact foldl_grantStep_isSome t r

/-- Witness for `selectActiveGrant_spec`: a concrete two-grant store where
the later grant is selected and dominates the other. -/
theorem selectActiveGrant_spec_witness :
    let g1 : UserCreditRow :=
      { id := "g1", user_id := "u", plan_id := "p", total_consultas := some 10,
        consultas_usadas := 0, valid_from := none, valid_until := 5, created_at := some 1 }
    let g2 : UserCreditRow :=
      { id := "g2", user_id := "u", plan_id := "p", total_consultas := some 10,
        consultas_usadas := 0, valid_from := none, valid_until := 9, created_at := some 2 }
    selectActiveGrant [g1, g2] "u" 3 = some g2 ∧
    g2 ∈ [g1, g2] ∧ g2.user_id = "u" ∧ (3 : Int) ≤ g2.valid_until := by
  intro g1 g2
  have h := (selectActiveGrant_spec [g1, g2] "u" 3).1 g2 (by decide)
  exact ⟨by decide, h.1, h.2.1, h.2.2.1⟩

/-- Whether `getUsageSnapshot` gets past its early return: the client is
configured and a non-empty `userId` was passed (`!supabase || !userId`). -/
def snapshotReady (configured : Bool) (userId : Option String) : Bool :=
  configured && (match userId with
    | some u => !(u == "")
    | none => false)

/-- C1, counterexample to the claim as stated: with the user id absent (and
likewise with the client unconfigured) the code returns
`creditsRemaining = null`, not `0`; and in the reachable state "store
answers, no active grant" the code returns `creditsTotal = null` with
`creditsRemaining = 0`, refuting the claimed "`creditsRemaining` is null
iff `creditsTotal` is null". -/
theorem getUsageSnapshot_claim_counterexample :
    (getUsageSnapshot true none [] [] 0).creditsRemaining = none ∧
    (getUsageSnapshot true (some "u")  [] [] 0).creditsTotal = none ∧
    (getUsageSnapshot true (some "u") [] [] 0).creditsRemaining = some 0 := by
  refine ⟨rfl, rfl, rfl⟩

/-- C1, amended: `creditsRemaining` is `null` when the client is
unconfigured or the user id is absent/empty (not `0`), and when an active
grant exists whose `creditsTotal` resolves to `null` (unlimited);
`creditsRemaining` is `0` when the lookup ran and found no active grant;
and whenever `creditsTotal` is finite,
`creditsRemaining = max(0, creditsTotal - creditsUsed)`.  In particular
"`creditsRemaining` null iff `creditsTotal` null" holds except in the
no-active-grant case, where `creditsTotal` is null but `creditsRemaining`
is `0`. -/
theorem getUsageSnapshot_remaining_cases (configured : Bool) (userId : Option String)
    (plans : List PlanRow) (credits : List UserCreditRow) (now : Int) :
    (snapshotReady configured userId = false →
       getUsageSnapshot configured userId plans credits now = defaultSnapshot) ∧
    (∀ u, configured = true → userId = some u → u ≠ "" →
       (selectActiveGrant credits u now = none →
          (getUsageSnapshot configured userId plans credits now).creditsTotal = none ∧
          (getUsageSnapshot configured userId plans credits now).creditsRemaining = some 0) ∧
       (∀ c, selectActiveGrant credits u now = some c →
          ((getUsageSnapshot configured userId plans credits now).creditsTotal = none →
             (getUsageSnapshot configured userId plans credits now).creditsRemaining = none))) ∧
    (∀ t, (getUsageSnapshot configured userId plans credits now).creditsTotal = some t →
       (getUsageSnapshot configured userId plans credits now).creditsRemaining =
         some (max 0 (t - (getUsageSnapshot configured userId plans credits now).creditsUsed))) := by
  refine ⟨?_, ?_, ?_⟩
  · intro hready
    cases configured with
    | false => rfl
    | true =>
      cases userId with
      | none => rfl
      | some u =>
        simp only [snapshotReady, Bool.true_and, Bool.not_eq_false', beq_iff_eq] at hready
        simp [getUsageSnapshot, hready]
  · intro u hcfg huid hne
    subst hcfg; subst huid
    constructor
    · intro hsel
      simp [getUsageSnapshot, hne, hsel, snapshotFor]
    · intro c hsel
      simp only [getUsageSnapshot, if_neg hne, hsel]
      cases htc : c.total_consultas with
      | some t => simp [snapshotFor, htc]
      | none =>
        cases hpt : (findPlan plans c.plan_id).bind (fun p => p.total_consultas) with
        | some t => simp [snapshotFor, htc, hpt]
        | none => simp [snapshotFor, htc, hpt]
  · intro t ht
    cases configured with
    | false => simp [getUsageSnapshot, defaultSnapshot] at ht
    | true =>
      cases userId with
      | none => simp [getUsageSnapshot, defaultSnapshot] at ht
      | some u =>
        by_cases hne : u = ""
        · simp [getUsageSnapshot, hne, defaultSnapshot] at ht
        · cases hsel : selectActiveGrant credits u now with
          | none => simp [getUsageSnapshot, hne, hsel, snapshotFor] at ht
          | some c =>
            simp only [getUsageSnapshot, if_neg hne, hsel] at ht ⊢
            cases htc : c.total_consultas with
            | some t0 => simp_all [snapshotFor, htc]
            | none =>
              cases hpt : (findPlan plans c.plan_id).bind (fun p => p.total_consultas) with
              | some t0 => simp_all [snapshotFor, htc, hpt]
              | none => simp [snapshotFor, htc, hpt] at ht

/-- Witness for `getUsageSnapshot_remaining_cases`, at a concrete store:
unconfigured client yields the default (all-null) snapshot; a reachable
empty store yields remaining `0`; a finite grant of 10 with 3 used yields
remaining `7`. -/
theorem getUsageSnapshot_remaining_cases_witness :
    getUsageSnapshot false none [] [] 0 = defaultSnapshot ∧
    (getUsageSnapshot true (some "u") [] [] 0).creditsRemaining = some 0 ∧
    (getUsageSnapshot true (some "u") []
        [{ id := "g", user_id := "u", plan_id := "p", total_consultas := some 10,
           consultas_usadas := 3, valid_from := none, valid_until := 9,
           created_at := some 1 }] 0).creditsRemaining = some (max 0 (10 - 3)) := by
  refine ⟨(getUsageSnapshot_remaining_cases false none [] [] 0).1 rfl, ?_, ?_⟩
  · exact (((getUsageSnapshot_remaining_cases true (some "u") [] [] 0).2.1 "u" rfl rfl
      (by decide)).1 rfl).2
  · exact (getUsageSnapshot_remaining_cases true (some "u") []
      [{ id := "g", user_id := "u", plan_id := "p", total_consultas := some 10,
         consultas_usadas := 3, valid_from := none, valid_until := 9,
         created_at := some 1 }] 0).2.2 10 rfl

/-- C7: `changePlan` is a silent no-op when the plan id does not resolve;
otherwise (configured client, non-empty user id) it appends exactly one
new grant row — with `consultas_usadas = 0` and
`valid_until = now + (duration_days ?? 30)` — leaving every existing
grant row unmodified. -/
theorem changePlan_spec (configured : Bool) (userId planId : String)
    (plans : List PlanRow) (credits : List UserCreditRow) (now : Int)
    (freshId : String) (rowCreatedAt : Option Int) :
    (findPlan plans planId = none →
       changePlan configured userId planId plans credits now freshId rowCreatedAt = credits) ∧
    (∀ p, configured = true → userId ≠ "" → findPlan plans planId = some p →
       changePlan configured userId planId plans credits now freshId rowCreatedAt =
         credits ++ [insertedGrantRow userId planId p now freshId rowCreatedAt] ∧
       (insertedGrantRow userId planId p now freshId rowCreatedAt).consultas_usadas = 0 ∧
       (insertedGrantRow userId planId p now freshId rowCreatedAt).valid_until =
         now + p.duration_days.getD 30) := by
  constructor
  · intro hnone
    unfold changePlan
    cases configured <;> by_cases h : userId = "" <;> simp [h, hnone]
  · intro p hcfg hne hfind
    subst hcfg
    refine ⟨?_, rfl, rfl⟩
    unfold changePlan
    simp [hne, hfind]

/-- Witness for `changePlan_spec`: a concrete catalog where an unknown plan
id leaves the store untouched and a known one appends its grant row. -/
theorem changePlan_spec_witness :
    let p : PlanRow := { id := "basic", name := "Basic", created_at := none,
                         total_consultas := some 25, duration_days := some 7,
                         price_pen := some 10 }
    changePlan true "u" "nope" [p] [] 0 "g1" none = [] ∧
    changePlan true "u" "basic" [p] [] 0 "g1" none =
      [insertedGrantRow "u" "basic" p 0 "g1" none] := by
  intro p
  refine ⟨(changePlan_spec true "u" "nope" [p] [] 0 "g1" none).1 (by decide), ?_⟩
  exact ((changePlan_spec true "u" "basic" [p] [] 0 "g1" none).2 p rfl
    (by decide) (by decide)).1

/-- C8: assigning a plan whose `totalConsultas` is null inserts a grant row
with `total_consultas = 0` (not an unlimited one), and once that row is
the active grant the snapshot reports `creditsTotal = 0` and
`creditsRemaining = 0` — a blocked entitlement. -/
theorem changePlan_unlimited_plan_blocks (userId planId : String)
    (plans : List PlanRow) (credits : List UserCreditRow) (now : Int)
    (freshId : String) (rowCreatedAt : Option Int) (p : PlanRow)
    (hne : userId ≠ "") (hfind : findPlan plans planId = some p)
    (hunl : p.total_consultas = none) :
    changePlan true userId planId plans credits now freshId rowCreatedAt =
      credits ++ [insertedGrantRow userId planId p now freshId rowCreatedAt] ∧
    (insertedGrantRow userId planId p now freshId rowCreatedAt).total_consultas = some 0 ∧
    (∀ now2,
       selectActiveGrant
           (credits ++ [insertedGrantRow userId planId p now freshId rowCreatedAt])
           userId now2 =
         some (insertedGrantRow userId planId p now freshId rowCreatedAt) →
       (getUsageSnapshot true (some userId) plans
           (credits ++ [insertedGrantRow userId planId p now freshId rowCreatedAt])
           now2).creditsTotal = some 0 ∧
       (getUsageSnapshot true (some userId) plans
           (credits ++ [insertedGrantRow userId planId p now freshId rowCreatedAt])
           now2).creditsRemaining = some 0) := by
  refine ⟨?_, ?_, ?_⟩
  · unfold changePlan
    simp [hne, hfind]
  · simp [insertedGrantRow, hunl]
  · intro now2 hsel
    simp only [getUsageSnapshot, if_neg hne, hsel]
    simp [snapshotFor, insertedGrantRow, hunl]

/-- Witness for `changePlan_unlimited_plan_blocks`: a concrete "unlimited"
plan produces a zero-credit snapshot once its grant is active. -/
theorem changePlan_unlimited_plan_blocks_witness :
    let p : PlanRow := { id := "unl", name := "Unlimited", created_at := none,
                         total_consultas := none, duration_days := some 10,
                         price_pen := some 50 }
    (insertedGrantRow "u" "unl" p 0 "g1" none).total_consultas = some 0 ∧
    (getUsageSnapshot true (some "u") [p]
        ([] ++ [insertedGrantRow "u" "unl" p 0 "g1" none]) 5).creditsRemaining = some 0 := by
  intro p
  have h := changePlan_unlimited_plan_blocks "u" "unl" [p] [] 0 "g1" none p
    (by decide) (by decide) rfl
  exact ⟨h.2.1, (h.2.2 5 (by decide)).2⟩

/-! ## Consultation orchestrator (src/app/(tabs)/index.tsx)

The orchestrator treats upstream JSON payloads, parse results and request
bodies as black-box values that it only stores, forwards, or tests for
JavaScript truthiness.  `Payload` carries an uninterpreted blob together with
that truthiness. -/

structure Payload where
  blob : String
  truthy : Bool
deriving Repr, DecidableEq

/-- The `consultas.tipo` enumeration (`ConsultaTipo` in src/lib/billing.ts). -/
inductive ConsultaTipo where
  | sunarp | soat | licencia | vehicular_full | papeletas | redam
deriving Repr, DecidableEq

/-- `mapServiceToConsultaTipo`: the fixed `serviceTipoMap` with default
`'vehicular_full'`. -/
def mapServiceToConsultaTipo (serviceKey : String) : ConsultaTipo :=
  if serviceKey == "soat" then .soat
  else if serviceKey == "itv" then .vehicular_full
  else if serviceKey == "sunarp" then .sunarp
  else if serviceKey == "sutran" then .papeletas
  else if serviceKey == "satlima" then .papeletas
  else if serviceKey == "satcallao" then .papeletas
  else if serviceKey == "licencia" then .licencia
  else if serviceKey == "dniperu" then .vehicular_full
  else if serviceKey == "redam" then .redam
  else .vehicular_full

/-- The `field` discriminator of a service configuration. -/
inductive QueryField where
  | placa | dni
deriving Repr, DecidableEq

/-- The `scope` discriminator of a service configuration. -/
inductive ServiceScope where
  | vehiculo | persona
deriving Repr, DecidableEq

/-- One entry of the `serviceConfigs` table.  The parser functions are pure
and irrelevant to the orchestration claims, so only their presence is kept
here; their application is delegated to the environment (`FetchEnv`). -/
structure ServiceConfig where
  endpoint : String
  hasParser : Bool
  field : QueryField
  scope : ServiceScope
deriving Repr, DecidableEq

/-- `apiBase` with its default value (the environment variable is external
configuration). -/
def apiBase : String := "http://localhost:8000"

/-- The `serviceConfigs` record of src/app/(tabs)/index.tsx. -/
def serviceConfigs (key : String) : Option ServiceConfig :=
  if key == "soat" then some ⟨apiBase ++ "/consulta-soat", true, .placa, .vehiculo⟩
  else if key == "itv" then some ⟨apiBase ++ "/consulta-itv", true, .placa, .vehiculo⟩
  else if key == "satlima" then some ⟨apiBase ++ "/consulta-sat", false, .placa, .vehiculo⟩
  else if key == "satcallao" then some ⟨apiBase ++ "/consulta-sat-callao", false, .placa, .vehiculo⟩
  else if key == "sutran" then some ⟨apiBase ++ "/consulta-sutran", false, .placa, .vehiculo⟩
  else if key == "sunarp" then some ⟨apiBase ++ "/consulta-vehicular", true, .placa, .vehiculo⟩
  else if key == "licencia" then some ⟨apiBase ++ "/consulta-licencia-dni", true, .dni, .persona⟩
  else if key == "dniperu" then some ⟨apiBase ++ "/consulta-dni-peru", true, .dni, .persona⟩
  else if key == "redam" then some ⟨apiBase ++ "/consulta-redam-dni", true, .dni, .persona⟩
  else none

/-- `formatDni`: `value.replace(/\D/g, '').slice(0, 8)`. -/
def formatDni (s : String) : String :=
  String.mk ((s.toList.filter fun c => c.isDigit).take 8)

/-- Removal of the first occurrence of a character, as JavaScript
`replace('-', '')` removes only the first match of a string pattern. -/
def removeFirstChar (c : Char) : List Char → List Char
  | [] => []
  | x :: xs => if x = c then xs else x :: removeFirstChar c xs

/-- `formattedPlate.replace('-', '')`. -/
def stripPlateDash (s : String) : String :=
  String.mk (removeFirstChar '-' s.toList)

/-- Per-service client state (`ServiceState` in src/app/(tabs)/index.tsx). -/
structure ServiceState where
  loading : Bool
  error : Option String
  data : Option Payload
  parsed : Option Payload
  query : Option String
  fetchedAt : Option Int
deriving Repr, DecidableEq

/-- JavaScript truthiness of a nullable stored payload. -/
def truthyData : Option Payload → Bool
  | none => false
  | some p => p.truthy

/-- JavaScript truthiness of a nullable string (`null` and `''` are falsy). -/
def truthyStr : Option String → Bool
  | none => false
  | some s => !(s == "")

/-- `hasCredits` (src/app/(tabs)/index.tsx, lines 1160-1164): `true` when no
snapshot is loaded yet or `creditsRemaining` is `null`; otherwise
`creditsRemaining > 0`. -/
def hasCredits (usage : Option UsageSnapshot) : Bool :=
  match usage with
  | none => true
  | some u =>
    match u.creditsRemaining with
    | none => true
    | some r => decide (0 < r)

/-- Result of the `consume_credit` RPC as seen by `registerConsulta`:
either the error channel is set (`consumeError`), or a value is returned
(`consumeOk`, which the code compares against `false` with `===`). -/
inductive ConsumeResult where
  | rpcError (msg : String)
  | value (v : Option Bool)
deriving Repr, DecidableEq

/-- Argument record of `registerConsulta` (`RegisterConsultaInput`). -/
structure RegisterInput where
  userId : String
  serviceKey : String
  placa : Option String
  dni : Option String
  payload : Option Payload
  respuesta : Option Payload
  resumen : Option String
  success : Option Bool
  errorCode : Option String
  durationMs : Option Int
  rawPath : Option String
deriving Repr, DecidableEq

/-- Row of the `consultas` table as built by `registerConsulta`. -/
structure ConsultaRow where
  user_id : String
  tipo : ConsultaTipo
  placa : Option String
  dni : Option String
  payload : Option Payload
  respuesta : Option Payload
  resumen : String
  success : Bool
  error_code : Option String
  duracion_ms : Option Int
  raw_path : Option String
deriving Repr, DecidableEq

/-- The `row` object built at the top of `registerConsulta`. -/
def consultaRowOf (input : RegisterInput) : ConsultaRow :=
  { user_id := input.userId,
    tipo := mapServiceToConsultaTipo input.serviceKey,
    placa := match input.placa with
      | some p => if p == "" then none else some p.toUpper
      | none => none,
    dni := input.dni,
    payload := input.payload,
    respuesta := input.respuesta,
    resumen := input.resumen.getD
      ((input.serviceKey ++ " " ++ ((input.placa.orElse fun _ => input.dni).getD "")).trim),
    success := input.success.getD true,
    error_code := input.errorCode,
    duracion_ms := input.durationMs,
    raw_path := input.rawPath }

/-- `registerConsulta` (src/lib/billing.ts, lines 182-212): returns the row
inserted into `consultas`, or `none` when nothing is inserted.  A
`consumeError` only logs a warning and still inserts; `consumeOk === false`
skips the insert. -/
def registerConsulta (configured : Bool) (consume : ConsumeResult)
    (input : RegisterInput) : Option ConsultaRow :=
  if !configured || input.userId == "" then none
  else
    match consume with
    | .rpcError _ => some (consultaRowOf input)
    | .value (some false) => none
    | .value _ => some (consultaRowOf input)

/-- Outcome of the single upstream POST of one `fetchService` invocation:
a 2xx response with its decoded JSON payload, a non-2xx response with its
status and body text, or a thrown network/decode error with its message. -/
inductive LookupOutcome where
  | ok (data : Payload)
  | httpError (status : Nat) (body : String)
  | netFail (msg : String)
deriving Repr, DecidableEq

/-- `true` exactly on the success outcome. -/
def isOkOutcome : LookupOutcome → Bool
  | .ok _ => true
  | _ => false

/-- The thrown error message for a non-OK response:
`Error ${status}: ${text || 'sin detalle'}`. -/
def httpErrMsg (status : Nat) (body : String) : String :=
  "Error " ++ toString status ++ ": " ++ (if body == "" then "sin detalle" else body)

/-- The `errorMessage` recorded for each outcome (`none` on success). -/
def errorMessageOf : LookupOutcome → Option String
  | .ok _ => none
  | .httpError s b => some (httpErrMsg s b)
  | .netFail m => some m

/-- Environment of one `fetchService` invocation: what the external world
(upstream service, credit RPC, clock) and the pure parsers do.  The
parser application and the per-owner SUNARP enrichment are abstract
functions here; their own HTTP traffic is not part of the paid service
lookup that the claims count. -/
structure FetchEnv where
  outcome : LookupOutcome
  consume : ConsumeResult
  runParser : String → Payload → Payload
  enrich : Option Payload → Option Payload
  startedAt : Int
  finishedAt : Int

/-- Component context read by `fetchService`: the nullable `supabase`
client, `session?.user?.id`, the current usage snapshot, and the two input
fields. -/
structure HomeCtx where
  storeConfigured : Bool
  session : Option String
  usage : Option UsageSnapshot
  formattedPlate : String
  personaDoc : String
deriving Repr, DecidableEq

/-- Observable effect of one `fetchService` invocation: the final per-key
state entry, the POSTs issued to the service endpoint
(endpoint, query value), the `consultas` row written, and whether the
usage snapshot was refreshed. -/
structure FetchResult where
  state : Option ServiceState
  lookups : List (String × String)
  record : Option ConsultaRow
  usageRefreshed : Bool
deriving Repr, DecidableEq

/-- The result of an invocation that returns before doing anything. -/
def untouched (current : Option ServiceState) : FetchResult :=
  { state := current, lookups := [], record := none, usageRefreshed := false }

/-- Minimum query length: 6 for a plate, 8 for a document. -/
def minLen : QueryField → Nat
  | .placa => 6
  | .dni => 8

/-- The dedup/cache check of `fetchService` (lines 1226-1237): not forced,
and the current entry holds truthy data for the same query, no truthy
error, and is not loading. -/
def dedupHit (force : Bool) (current : Option ServiceState) (q : String) : Bool :=
  !force &&
    (match current with
     | none => false
     | some c => (c.query == some q) && truthyData c.data && !truthyStr c.error && !c.loading)

/-- `current?.loading` (line 1238). -/
def isLoadingState (current : Option ServiceState) : Bool :=
  (current.map fun c => c.loading).getD false

/-- The request body `{ [config.field]: queryValue, extraer_propietarios?
: true }`, serialized abstractly. -/
def requestBlob (field : QueryField) (q : String) (extraerPropietarios : Bool) : Payload :=
  { blob := (match field with | .placa => "placa:" | .dni => "dni:") ++ q ++
      (if extraerPropietarios then " extraer_propietarios:true" else ""),
    truthy := true }

/-- The `RegisterConsultaInput` object passed by the finally block of
`fetchService` for the session user `uid`. -/
def lookupRegisterInput (env : FetchEnv) (ctx : HomeCtx) (key : String)
    (config : ServiceConfig) (queryValue uid : String) : RegisterInput :=
  { userId := uid, serviceKey := key,
    placa := match config.field with
      | .placa => some queryValue
      | .dni => none,
    dni := match config.field with
      | .dni => some queryValue
      | .placa => none,
    payload := some (requestBlob config.field queryValue (key == "sunarp")),
    respuesta := match env.outcome with
      | .ok d => some d
      | _ => none,
    resumen := some (match config.field with
      | .placa => key.toUpper ++ " " ++ ctx.formattedPlate
      | .dni => key.toUpper ++ " " ++ queryValue),
    success := some (isOkOutcome env.outcome),
    errorCode := if isOkOutcome env.outcome then none else errorMessageOf env.outcome,
    durationMs := some (env.finishedAt - env.startedAt),
    rawPath := some config.endpoint }

/-- The part of `fetchService` past all four early returns (config lookup,
credit gate, validation, dedup, mutual exclusion): the POST with its three
possible outcomes, the final per-key state, and the finally-block
`registerConsulta` + `refreshUsage` when a session exists. -/
def performFetch (env : FetchEnv) (ctx : HomeCtx) (key : String) (config : ServiceConfig)
    (queryValue : String) : FetchResult :=
  let newState : ServiceState :=
    match env.outcome with
    | .ok d =>
      let parsed0 := if config.hasParser then some (env.runParser key d) else none
      let parsed := if key == "sunarp" then env.enrich parsed0 else parsed0
      { loading := false, error := none, data := some d, parsed := parsed,
        query := some queryValue, fetchedAt := some env.finishedAt }
    | .httpError s b =>
      { loading := false, error := some (httpErrMsg s b), data := none, parsed := none,
        query := some queryValue, fetchedAt := some env.finishedAt }
    | .netFail m =>
      { loading := false, error := some m, data := none, parsed := none,
        query := some queryValue, fetchedAt := some env.finishedAt }
  let record : Option ConsultaRow :=
    match ctx.session with
    | some uid =>
      if uid == "" then none
      else
        registerConsulta ctx.storeConfigured env.consume
          (lookupRegisterInput env ctx key config queryValue uid)
    | none => none
  { state := some newState,
    lookups := [(config.endpoint, queryValue)],
    record := record,
    usageRefreshed := match ctx.session with
      | some uid => !(uid == "")
      | none => false }

/-- `fetchService` (src/app/(tabs)/index.tsx, lines 1210-1308): config
lookup, credit gate, input validation, dedup/cache check, mutual
exclusion on `loading`, then `performFetch`. -/
def fetchService (env : FetchEnv) (ctx : HomeCtx) (key : String) (value : Option String)
    (force : Bool) (current : Option ServiceState) : FetchResult :=
  match serviceConfigs key with
  | none => untouched current
  | some config =>
    if !hasCredits ctx.usage then untouched current
    else
      let queryValue := value.getD (match config.field with
        | .placa => stripPlateDash ctx.formattedPlate
        | .dni => formatDni ctx.personaDoc)
      if (queryValue == "") || decide (queryValue.length < minLen config.field) then
        untouched current
      else if dedupHit force current queryValue then untouched current
      else if isLoadingState current then untouched current
      else performFetch env ctx key config queryValue

/-! ### Helper lemmas about `fetchService` -/

theorem fetchService_proceeds (env : FetchEnv) (ctx : HomeCtx) (key : String)
    (config : ServiceConfig) (v : String) (force : Bool) (current : Option ServiceState)
    (hcfg : serviceConfigs key = some config) (hcred : hasCredits ctx.usage = true)
    (hv1 : v ≠ "") (hv2 : minLen config.field ≤ v.length)
    (hnodedup : dedupHit force current v = false) (hnoload : isLoadingState current = false) :
    fetchService env ctx key (some v) force current = performFetch env ctx key config v := by
  have hvb : (v == "") = false := beq_eq_false_iff_ne.mpr hv1
  have hlen : decide (v.length < minLen config.field) = false :=
    decide_eq_false (not_lt.mpr hv2)
  unfold fetchService
  rw [hcfg]
  simp [hcred, hvb, hlen, hnodedup, hnoload]

theorem performFetch_lookups (env : FetchEnv) (ctx : HomeCtx) (key : String)
    (config : ServiceConfig) (v : String) :
    (performFetch env ctx key config v).lookups = [(config.endpoint, v)] := by
  simp [performFetch]

theorem performFetch_state_ok (env : FetchEnv) (ctx : HomeCtx) (key : String)
    (config : ServiceConfig) (v : String) (d : Payload) (hok : env.outcome = .ok d) :
    (performFetch env ctx key config v).state = some
      { loading := false, error := none, data := some d,
        parsed :=
          (if key == "sunarp" then
            env.enrich (if config.hasParser then some (env.runParser key d) else none)
          else if config.hasParser then some (env.runParser key d) else none),
        query := some v, fetchedAt := some env.finishedAt } := by
  simp only [performFetch, hok]

/-! ### Sample environments and contexts for the concrete instances -/

/-- A truthy upstream payload. -/
def sampleData : Payload := { blob := "resultado", truthy := true }

/-- An environment whose lookup succeeds and whose credit consumption is
granted. -/
def sampleEnvOk : FetchEnv :=
  { outcome := .ok sampleData, consume := .value (some true),
    runParser := fun _ p => p, enrich := fun p => p,
    startedAt := 0, finishedAt := 5 }

/-- Same lookup, but the `consume_credit` RPC reports an error. -/
def sampleEnvRpcErr : FetchEnv := { sampleEnvOk with consume := .rpcError "rpc down" }

/-- Same lookup, but `consume_credit` returns `false`. -/
def sampleEnvDenied : FetchEnv := { sampleEnvOk with consume := .value (some false) }

/-- A snapshot with the given remaining-credit field. -/
def sampleSnapshot (r : Option Int) : UsageSnapshot :=
  { plan := none, credit := none, creditsTotal := some 5, creditsUsed := 0,
    creditsRemaining := r, validUntil := none }

/-- A logged-in context whose snapshot has the given remaining credits. -/
def sampleCtx (r : Option Int) : HomeCtx :=
  { storeConfigured := true, session := some "user-1", usage := some (sampleSnapshot r),
    formattedPlate := "ABC-123", personaDoc := "12345678" }

/-- A per-key state with a request in flight. -/
def loadingState : ServiceState :=
  { loading := true, error := none, data := none, parsed := none,
    query := some "ABC123", fetchedAt := none }

/-! ### C2: the credit gate -/

/-- C2: whenever the current snapshot shows `creditsRemaining` exactly `0`,
any `fetchService` call — any service key, any query value, forced or
not — issues no POST, writes no `consultas` row, refreshes nothing, and
leaves the per-key state unchanged. -/
theorem fetchService_credit_gate (env : FetchEnv) (ctx : HomeCtx) (key : String)
    (value : Option String) (force : Bool) (current : Option ServiceState)
    (u : UsageSnapshot) (husage : ctx.usage = some u)
    (hzero : u.creditsRemaining = some 0) :
    fetchService env ctx key value force current = untouched current := by
  have hc : hasCredits ctx.usage = false := by
    simp [hasCredits, husage, hzero]
  unfold fetchService
  cases hk : serviceConfigs key with
  | none => rfl
  | some config => simp [hc]

/-- Witness for `fetchService_credit_gate` at a concrete zero-credit
context. -/
theorem fetchService_credit_gate_witness :
    fetchService sampleEnvOk (sampleCtx (some 0)) "soat" (some "ABC123") true
        (some loadingState) =
      untouched (some loadingState) :=
  fetchService_credit_gate sampleEnvOk (sampleCtx (some 0)) "soat" (some "ABC123") true
    (some loadingState) (sampleSnapshot (some 0)) rfl rfl

/-! ### C4: dedup/idempotence for repeated identical queries -/

/-- C4: with a first call that proceeds to the lookup and succeeds with
truthy data, a second un-forced call for the identical query value issues
no POST, writes nothing and leaves the state unchanged — so the pair
performs exactly one network call (regardless of what the snapshot looks
like by the time of the second call). -/
theorem fetchService_idempotent (env1 env2 : FetchEnv) (ctx1 ctx2 : HomeCtx) (key : String)
    (config : ServiceConfig) (v : String) (d : Payload) (force1 : Bool)
    (current : Option ServiceState)
    (hcfg : serviceConfigs key = some config) (hcred : hasCredits ctx1.usage = true)
    (hv1 : v ≠ "") (hv2 : minLen config.field ≤ v.length)
    (hnodedup : dedupHit force1 current v = false)
    (hnoload : isLoadingState current = false)
    (hok : env1.outcome = .ok d) (hd : d.truthy = true) :
    (fetchService env1 ctx1 key (some v) force1 current).lookups.length = 1 ∧
    fetchService env2 ctx2 key (some v) false
        (fetchService env1 ctx1 key (some v) force1 current).state =
      untouched (fetchService env1 ctx1 key (some v) force1 current).state := by
  have hrun := fetchService_proceeds env1 ctx1 key config v force1 current hcfg hcred hv1 hv2
    hnodedup hnoload
  have hstate := performFetch_state_ok env1 ctx1 key config v d hok
  constructor
  · rw [hrun, performFetch_lookups]
    rfl
  · rw [hrun, hstate]
    have hvb : (v == "") = false := beq_eq_false_iff_ne.mpr hv1
    have hlen : decide (v.length < minLen config.field) = false :=
      decide_eq_false (not_lt.mpr hv2)
    unfold fetchService
    rw [hcfg]
    cases hc2 : hasCredits ctx2.usage with
    | false => simp [hc2]
    | true => simp [hc2, hvb, hlen, dedupHit, truthyData, truthyStr, hd]

/-- Witness for `fetchService_idempotent`: the concrete pair of calls for
plate `ABC123` against `soat`. -/
theorem fetchService_idempotent_witness :
    (fetchService sampleEnvOk (sampleCtx (some 5)) "soat" (some "ABC123") false
        none).lookups.length = 1 ∧
    fetchService sampleEnvOk (sampleCtx (some 4)) "soat" (some "ABC123") false
        (fetchService sampleEnvOk (sampleCtx (some 5)) "soat" (some "ABC123") false
          none).state =
      untouched
        (fetchService sampleEnvOk (sampleCtx (some 5)) "soat" (some "ABC123") false
          none).state :=
  fetchService_idempotent sampleEnvOk sampleEnvOk (sampleCtx (some 5)) (sampleCtx (some 4))
    "soat" ⟨apiBase ++ "/consulta-soat", true, .placa, .vehiculo⟩ "ABC123" sampleData false
    none rfl rfl (by decide) (by decide) rfl rfl rfl rfl

/-! ### C5: forced refresh -/

/-- C5, counterexample to the claim as stated: with credits available, a
valid plate, and `force: true`, a per-key state whose `loading` flag is
set makes `fetchService` return without issuing any network call — the
mutual-exclusion check wins over `force`, so a forced call does **not**
always trigger a new network call "regardless of the cached per-key
state". -/
theorem fetchService_force_claim_counterexample :
    (fetchService sampleEnvOk (sampleCtx (some 5)) "soat" (some "ABC123") true
        (some loadingState)).lookups = [] ∧
    fetchService sampleEnvOk (sampleCtx (some 5)) "soat" (some "ABC123") true
        (some loadingState) =
      untouched (some loadingState) := by
  constructor <;> rfl

/-- C5, amended: a forced call always issues a new network call regardless
of the cached `data`, `error` and `query` of the per-key state, provided
the request is not vetoed earlier for reasons other than the cache: the
credit gate passes, the query value is valid, and no request for that key
is currently in flight (`loading`). -/
theorem fetchService_force_refetches (env : FetchEnv) (ctx : HomeCtx) (key : String)
    (config : ServiceConfig) (v : String) (current : Option ServiceState)
    (hcfg : serviceConfigs key = some config) (hcred : hasCredits ctx.usage = true)
    (hv1 : v ≠ "") (hv2 : minLen config.field ≤ v.length)
    (hnoload : isLoadingState current = false) :
    (fetchService env ctx key (some v) true current).lookups = [(config.endpoint, v)] := by
  have hnodedup : dedupHit true current v = false := by simp [dedupHit]
  rw [fetchService_proceeds env ctx key config v true current hcfg hcred hv1 hv2 hnodedup
    hnoload]
  exact performFetch_lookups env ctx key config v

/-- Witness for `fetchService_force_refetches`: a forced call over a cached
error state still issues the POST. -/
theorem fetchService_force_refetches_witness :
    (fetchService sampleEnvOk (sampleCtx (some 5)) "soat" (some "ABC123") true
        (some { loading := false, error := some "Error 500: sin detalle", data := none,
                parsed := none, query := some "ABC123", fetchedAt := some 1 })).lookups =
      [(apiBase ++ "/consulta-soat", "ABC123")] :=
  fetchService_force_refetches sampleEnvOk (sampleCtx (some 5)) "soat"
    ⟨apiBase ++ "/consulta-soat", true, .placa, .vehiculo⟩ "ABC123"
    (some { loading := false, error := some "Error 500: sin detalle", data := none,
            parsed := none, query := some "ABC123", fetchedAt := some 1 })
    rfl rfl (by decide) (by decide) rfl

/-! ### C3: the finally-block consultation record -/

/-- C3: for every invocation that reaches the lookup (validation, credit
gate, dedup and mutual exclusion all passed) with a live session and a
configured store, exactly one `consultas` row is written whether the
lookup succeeded or failed — its `success` flag and `error_code`
reflecting the outcome — except that nothing is written when
`consume_credit` returns `false`; an error reported by `consume_credit`
does not prevent the write. -/
theorem fetchService_always_records (env : FetchEnv) (ctx : HomeCtx) (key : String)
    (config : ServiceConfig) (v : String) (force : Bool) (current : Option ServiceState)
    (uid : String)
    (hcfg : serviceConfigs key = some config) (hcred : hasCredits ctx.usage = true)
    (hv1 : v ≠ "") (hv2 : minLen config.field ≤ v.length)
    (hnodedup : dedupHit force current v = false)
    (hnoload : isLoadingState current = false)
    (hsess : ctx.session = some uid) (huid : uid ≠ "")
    (hstore : ctx.storeConfigured = true) :
    (env.consume = .value (some false) →
       (fetchService env ctx key (some v) force current).record = none) ∧
    (env.consume ≠ .value (some false) →
       ∃ row, (fetchService env ctx key (some v) force current).record = some row ∧
         row.success = isOkOutcome env.outcome ∧
         row.error_code = errorMessageOf env.outcome) := by
  rw [fetchService_proceeds env ctx key config v force current hcfg hcred hv1 hv2
    hnodedup hnoload]
  have huidb : (uid == "") = false := beq_eq_false_iff_ne.mpr huid
  have hrec : (performFetch env ctx key config v).record =
      registerConsulta ctx.storeConfigured env.consume
        (lookupRegisterInput env ctx key config v uid) := by
    simp [performFetch, hsess, huidb]
  have herrc :
      (if isOkOutcome env.outcome = true then none else errorMessageOf env.outcome) =
        errorMessageOf env.outcome := by
    cases env.outcome <;> simp [isOkOutcome, errorMessageOf]
  constructor
  · intro hdenied
    rw [hrec, hdenied]
    simp [registerConsulta, hstore, lookupRegisterInput, huidb]
  · intro hother
    refine ⟨consultaRowOf (lookupRegisterInput env ctx key config v uid), ?_, ?_, ?_⟩
    · rw [hrec]
      cases hcon : env.consume with
      | rpcError m => simp [registerConsulta, hstore, lookupRegisterInput, huidb]
      | value b =>
        cases b with
        | none => simp [registerConsulta, hstore, lookupRegisterInput, huidb]
        | some bb =>
          cases bb with
          | false => exact absurd hcon hother
          | true => simp [registerConsulta, hstore, lookupRegisterInput, huidb]
    · simp [consultaRowOf, lookupRegisterInput]
    · simp only [consultaRowOf, lookupRegisterInput]
      exact herrc

/-- Witness for `fetchService_always_records`: concrete calls where the
lookup fails but a failure row is written despite an RPC error, and where
`consume_credit` returning `false` suppresses the row. -/
theorem fetchService_always_records_witness :
    ((fetchService sampleEnvDenied (sampleCtx (some 5)) "soat" (some "ABC123") true
        none).record = none) ∧
    ∃ row,
      (fetchService sampleEnvRpcErr (sampleCtx (some 5)) "soat" (some "ABC123") true
          none).record = some row ∧
      row.success = isOkOutcome sampleEnvRpcErr.outcome ∧
      row.error_code = errorMessageOf sampleEnvRpcErr.outcome := by
  constructor
  · exact (fetchService_always_records sampleEnvDenied (sampleCtx (some 5)) "soat"
      ⟨apiBase ++ "/consulta-soat", true, .placa, .vehiculo⟩ "ABC123" true none "user-1"
      rfl rfl (by decide) (by decide) rfl rfl rfl (by decide) rfl).1 rfl
  · exact (fetchService_always_records sampleEnvRpcErr (sampleCtx (some 5)) "soat"
      ⟨apiBase ++ "/consulta-soat", true, .placa, .vehiculo⟩ "ABC123" true none "user-1"
      rfl rfl (by decide) (by decide) rfl rfl rfl (by decide) rfl).2 (by decide)

/-! ## Insurance (SOAT) parser (src/app/(tabs)/index.tsx, lines 126-148) -/

/-- `split` on a single separator character, with the empty-segment
behaviour of JavaScript `String.split`. -/
def splitOnChar (c : Char) : List Char → List (List Char)
  | [] => [[]]
  | x :: xs =>
    let r := splitOnChar c xs
    if x == c then [] :: r
    else
      match r with
      | [] => [[x]]
      | h :: t => (x :: h) :: t

/-- `trim()`: strip whitespace from both ends. -/
def trimChars (l : List Char) : List Char :=
  ((l.dropWhile Char.isWhitespace).reverse.dropWhile Char.isWhitespace).reverse

/-- `row.split(/\t+/).filter(Boolean)`: splitting on single tabs and
dropping empty tokens is equivalent to splitting on runs of tabs and
dropping the boundary empties. -/
def splitTabs (l : String) : List String :=
  ((splitOnChar '\t' l.toList).map String.mk).filter fun t => t ≠ ""

/-- `raw.split(/\r?\n/).map(trim).filter(Boolean)`: splitting on `'\n'`
and trimming also removes a trailing `'\r'`, since `trim` strips it. -/
def procLines (raw : String) : List String :=
  (((splitOnChar '\n' raw.toList).map fun l => String.mk (trimChars l)).filter
    fun l => l ≠ "")

/-- `toLowerCase()` over the alphabet relevant to the parser: ASCII letters
plus the accented Spanish vowels and enye appearing in the header
fragments. -/
def lowerChar (c : Char) : Char :=
  if c = 'Ñ' then 'ñ'
  else if c = 'Á' then 'á'
  else if c = 'É' then 'é'
  else if c = 'Í' then 'í'
  else if c = 'Ó' then 'ó'
  else if c = 'Ú' then 'ú'
  else c.toLower

/-- Whether the first list is an initial segment of the second. -/
def charsStartWith : List Char → List Char → Bool
  | [], _ => true
  | _ :: _, [] => false
  | a :: as, b :: bs => a == b && charsStartWith as bs

/-- Whether the first list occurs contiguously inside the second. -/
def charsContain (pat : List Char) : List Char → Bool
  | [] => pat.isEmpty
  | b :: bs => charsStartWith pat (b :: bs) || charsContain pat bs

/-- `l.toLowerCase().includes(frag)` for a lowercase fragment `frag`. -/
def containsFrag (l frag : String) : Bool :=
  charsContain frag.toList (l.toList.map lowerChar)

/-- `join(':')`. -/
def joinWithColon : List (List Char) → List Char
  | [] => []
  | [x] => x
  | x :: xs => x ++ ':' :: joinWithColon xs

/-- `l.split(':').slice(1).join(':').trim()`. -/
def afterColonValue (l : String) : String :=
  String.mk (trimChars (joinWithColon ((splitOnChar ':' l.toList).drop 1)))

/-- The parsed insurance record (`SoatData`). -/
structure SoatData where
  aseguradora : String
  clase : String
  uso : String
  accidentes : String
  poliza : String
  certificado : String
  inicio : String
  fin : String
  infoActualizada : Option String
deriving Repr, DecidableEq

/-- A line with at least 5 tab-separated non-empty fields. -/
def hasMin5 (l : String) : Bool :=
  decide (5 ≤ (splitTabs l).length)

/-- Index of the header line (`findIndex` on the
`'compañía aseguradora'` fragment). -/
def soatHeaderIdx (lines : List String) : Option Nat :=
  lines.findIdx? fun l => containsFrag l "compañía aseguradora"

/-- The data-row selection of `parseSoat`: the first line after the header
with ≥5 tab fields, else (`if (!row)`) the first such line anywhere. -/
def soatRow (lines : List String) : Option String :=
  match soatHeaderIdx lines with
  | some i =>
    match (lines.drop (i + 1)).find? hasMin5 with
    | some r => some r
    | none => lines.find? hasMin5
  | none => lines.find? hasMin5

/-- The optional "last updated" value: the text after the first colon of
the first line containing the `'información actualizada'` fragment,
`undefined` when empty or when no such line exists (`|| undefined`). -/
def soatInfo (lines : List String) : Option String :=
  match lines.find? (fun l => containsFrag l "información actualizada") with
  | some l =>
    let v := afterColonValue l
    if v == "" then none else some v
  | none => none

/-- `parseSoat` (src/app/(tabs)/index.tsx, lines 126-148). -/
def parseSoat (raw : String) : Option SoatData :=
  let lines := procLines raw
  match soatRow lines with
  | none => none
  | some r =>
    let parts := splitTabs r
    if parts.length < 8 then none
    else
      some { aseguradora := parts.getD 0 "", clase := parts.getD 1 "",
             uso := parts.getD 2 "", accidentes := parts.getD 3 "",
             poliza := parts.getD 4 "", certificado := parts.getD 5 "",
             inicio := parts.getD 6 "", fin := parts.getD 7 "",
             infoActualizada := soatInfo lines }

/-- C9: if the line immediately following the (first) insurer-column header
line splits into exactly 8 tab-separated non-empty fields, `parseSoat`
returns a record whose 8 named fields are those 8 tokens in order; and it
returns `null` when no line splits into at least 5 fields, or when the
selected data row yields fewer than 8 fields. -/
theorem parseSoat_spec (raw : String) :
    (∀ i line8 t1 t2 t3 t4 t5 t6 t7 t8,
       soatHeaderIdx (procLines raw) = some i →
       (procLines raw).get? (i + 1) = some line8 →
       splitTabs line8 = [t1, t2, t3, t4, t5, t6, t7, t8] →
       ∃ sd, parseSoat raw = some sd ∧
         sd.aseguradora = t1 ∧ sd.clase = t2 ∧ sd.uso = t3 ∧ sd.accidentes = t4 ∧
         sd.poliza = t5 ∧ sd.certificado = t6 ∧ sd.inicio = t7 ∧ sd.fin = t8) ∧
    ((∀ l ∈ procLines raw, (splitTabs l).length < 5) → parseSoat raw = none) ∧
    (∀ r, soatRow (procLines raw) = some r → (splitTabs r).length < 8 →
       parseSoat raw = none) := by
  refine ⟨?_, ?_, ?_⟩
  · intro i line8 t1 t2 t3 t4 t5 t6 t7 t8 hidx hline hsplit
    have hlt : i + 1 < (procLines raw).length := by
      rcases List.get?_eq_some.mp hline with ⟨h, _⟩
      exact h
    have hdrop : (procLines raw).drop (i + 1) =
        (procLines raw)[i + 1] :: (procLines raw).drop (i + 1 + 1) :=
      List.drop_eq_getElem_cons hlt
    have hgete : (procLines raw)[i + 1] = line8 := by
      have := List.get?_eq_some.mp hline
      rcases this with ⟨h, hh⟩
      simpa [List.get_eq_getElem] using hh
    have h5 : hasMin5 line8 = true := by
      simp [hasMin5, hsplit]
    have hfind : ((procLines raw).drop (i + 1)).find? hasMin5 = some line8 := by
      rw [hdrop, hgete]
      exact List.find?_cons_of_pos _ h5
    have hrow : soatRow (procLines raw) = some line8 := by
      unfold soatRow
      rw [hidx]
      dsimp only
      rw [hfind]
    refine ⟨{ aseguradora := t1, clase := t2, uso := t3, accidentes := t4, poliza := t5,
              certificado := t6, inicio := t7, fin := t8,
              infoActualizada := soatInfo (procLines raw) },
            ?_, rfl, rfl, rfl, rfl, rfl, rfl, rfl, rfl⟩
    simp only [parseSoat]
    rw [hrow]
    simp [hsplit]
  · intro hall
    have hfalse : ∀ l ∈ procLines raw, hasMin5 l = false := by
      intro l hl
      have := hall l hl
      simp only [hasMin5, decide_eq_false_iff_not]
      omega
    have hfind : (procLines raw).find? hasMin5 = none :=
      List.find?_eq_none.mpr fun x hx => by simp [hfalse x hx]
    have hdropfind : ∀ i, ((procLines raw).drop i).find? hasMin5 = none := fun i =>
      List.find?_eq_none.mpr fun x hx => by
        simp [hfalse x (List.mem_of_mem_drop hx)]
    have hrow : soatRow (procLines raw) = none := by
      unfold soatRow
      cases hidx : soatHeaderIdx (procLines raw) with
      | none => simp [hfind]
      | some i => simp [hdropfind (i + 1), hfind]
    simp [parseSoat, hrow]
  · intro r hrow hlen
    simp [parseSoat, hrow, hlen]

/-- A concrete SOAT text blob: an "información actualizada" line, the
insurer-column header, and a tab-separated data row of 8 fields. -/
def soatSample : String :=
  "Información actualizada: 01/02/2024\nCompañía Aseguradora\tClase\tUso\nMAPFRE\tAUTO\tPARTICULAR\t0\tP123\tC45\t01/01/2024\t31/12/2024"

/-- Witness for `parseSoat_spec`: the round trip on `soatSample`. -/
theorem parseSoat_spec_witness :
    ∃ sd, parseSoat soatSample = some sd ∧
      sd.aseguradora = "MAPFRE" ∧ sd.clase = "AUTO" ∧ sd.uso = "PARTICULAR" ∧
      sd.accidentes = "0" ∧ sd.poliza = "P123" ∧ sd.certificado = "C45" ∧
      sd.inicio = "01/01/2024" ∧ sd.fin = "31/12/2024" :=
  (parseSoat_spec soatSample).1 1
    "MAPFRE\tAUTO\tPARTICULAR\t0\tP123\tC45\t01/01/2024\t31/12/2024"
    "MAPFRE" "AUTO" "PARTICULAR" "0" "P123" "C45" "01/01/2024" "31/12/2024"
    (by decide) (by decide) (by decide)

/-! ## Owner-identity enrichment cancellation
(src/app/(tabs)/index.tsx, lines 1042-1158)

The `useEffect` keyed on the normalized owner name starts one lookup cycle
per effect run, with an `AbortController` whose `abort` is the effect
cleanup.  The model below is an event-loop abstraction of that code:

* a `changeName` event is one React commit for a changed owner name — it
  runs the previous cleanup (aborting the in-flight cycle, if any) and the
  new effect body (reset for an empty name, cache check, else a new cycle
  with `setOwnerLookup(loading)`) atomically, as React does;
* a `resolve` event is the settlement of everything a cycle awaits.  Every
  `await` of the cycle (both `fetch`es and the body reads) is attached to
  the cycle's abort signal, so a cycle aborted before settlement rejects
  with `AbortError` and its `catch` returns without touching state; a
  cycle that settles un-aborted runs from its last `await` to its
  `setOwnerLookup` without yielding the thread, hence writes atomically.
  The write carries the `queryKey` captured when the cycle started. -/

/-- The `'persona' | 'empresa'` discriminator. -/
inductive OwnerKind where
  | persona | empresa
deriving Repr, DecidableEq

/-- `OwnerLookupState` (src/app/(tabs)/index.tsx, lines 109-115). -/
structure OwnerLookupState where
  loading : Bool
  type : Option OwnerKind
  data : Option Payload
  error : Option String
  query : Option String
deriving Repr, DecidableEq

/-- The reset value `{loading: false, type: null, data: null, error: null,
query: null}`. -/
def initialOwnerLookup : OwnerLookupState :=
  { loading := false, type := none, data := none, error := none, query := none }

/-- The cache key of a lookup cycle: `ambos:${ownerNameClean}`. -/
def mkOwnerQueryKey (ownerNameClean : String) : String :=
  "ambos:" ++ ownerNameClean

/-- One lookup cycle: the captured query key, whether its controller was
aborted, and whether its promise chain has settled. -/
structure LookupCycle where
  key : String
  aborted : Bool
  done : Bool
deriving Repr, DecidableEq

/-- The component-plus-event-loop state: current normalized owner name,
index of the cycle started by the latest effect run (if it started one),
all cycles ever started, and the React `ownerLookup` state. -/
structure EnrichSys where
  ownerName : String
  active : Option Nat
  cycles : List LookupCycle
  lookup : OwnerLookupState
deriving Repr, DecidableEq

/-- Initial state: no owner name, no cycles. -/
def initialEnrichSys : EnrichSys :=
  { ownerName := "", active := none, cycles := [], lookup := initialOwnerLookup }

/-- How a cycle's promises settle when not aborted: the company lookup
matched, the person lookup matched, neither matched, or a non-abort error
was thrown. -/
inductive CycleResult where
  | empresa (d : Payload)
  | persona (d : Payload)
  | nomatch
  | failure (msg : String)
deriving Repr, DecidableEq

/-- Events: the owner name changes (one React commit), or cycle `i`
settles. -/
inductive EnrichEv where
  | changeName (n : String)
  | resolve (i : Nat) (r : CycleResult)
deriving Repr, DecidableEq

/-- Pointwise update of the cycle at an index. -/
def updateCycle (f : LookupCycle → LookupCycle) : List LookupCycle → Nat → List LookupCycle
  | [], _ => []
  | c :: cs, 0 => f c :: cs
  | c :: cs, n + 1 => c :: updateCycle f cs n

/-- `controller.abort()` on cycle `i`. -/
def abortCycle (cs : List LookupCycle) (i : Nat) : List LookupCycle :=
  updateCycle (fun c => { c with aborted := true }) cs i

/-- Mark cycle `i` settled. -/
def finishCycle (cs : List LookupCycle) (i : Nat) : List LookupCycle :=
  updateCycle (fun c => { c with done := true }) cs i

/-- The `shouldFetch` cache check:
`prev.query === queryKey && (prev.data || prev.error) && !prev.loading`. -/
def cachedHit (lk : OwnerLookupState) (k : String) : Bool :=
  (lk.query == some k) && (truthyData lk.data || truthyStr lk.error) && !lk.loading

/-- The loading state written when a cycle starts:
`{loading: true, type: null, data: null, error: null, query: queryKey}`. -/
def loadingOwnerLookup (k : String) : OwnerLookupState :=
  { loading := true, type := none, data := none, error := none, query := some k }

/-- The state written by a settling cycle with key `k`: the four
`setOwnerLookup` calls of `run` (empresa match, persona match, explicit
no-match error, caught non-abort error), all carrying `query: queryKey`. -/
def writeOwnerLookup (k : String) : CycleResult → OwnerLookupState
  | .empresa d =>
    { loading := false, type := some .empresa, data := some d, error := none, query := some k }
  | .persona d =>
    { loading := false, type := some .persona, data := some d, error := none, query := some k }
  | .nomatch =>
    { loading := false, type := none, data := none,
      error := some "Sin resultados por nombres.", query := some k }
  | .failure m =>
    { loading := false, type := none, data := none, error := some m, query := some k }

/-- The transition relation described in the section header. -/
def enrichStep (s : EnrichSys) : EnrichEv → EnrichSys
  | .changeName n =>
    let cs1 := match s.active with
      | some i => abortCycle s.cycles i
      | none => s.cycles
    if n == "" then
      { ownerName := n, active := none, cycles := cs1, lookup := initialOwnerLookup }
    else
      let k := mkOwnerQueryKey n
      if cachedHit s.lookup k then
        { ownerName := n, active := none, cycles := cs1, lookup := s.lookup }
      else
        { ownerName := n, active := some cs1.length,
          cycles := cs1 ++ [{ key := k, aborted := false, done := false }],
          lookup := loadingOwnerLookup k }
  | .resolve i r =>
    match s.cycles.get? i with
    | none => s
    | some c =>
      if c.done then s
      else if c.aborted then { s with cycles := finishCycle s.cycles i }
      else { s with cycles := finishCycle s.cycles i, lookup := writeOwnerLookup c.key r }

/-- The system state after a sequence of events. -/
def enrichRun (evs : List EnrichEv) : EnrichSys :=
  evs.foldl enrichStep initialEnrichSys

/-- Whether a `resolve i` event would apply a state update in `s`: cycle
`i` exists, has not settled, and was never aborted. -/
def resolveWrites (s : EnrichSys) (i : Nat) : Bool :=
  match s.cycles.get? i with
  | some c => !c.aborted && !c.done
  | none => false

theorem updateCycle_get? (f : LookupCycle → LookupCycle) (cs : List LookupCycle) (i j : Nat) :
    (updateCycle f cs i).get? j = if j = i then (cs.get? j).map f else cs.get? j := by
  induction cs generalizing i j with
  | nil => simp [updateCycle]
  | cons c t ih =>
    cases i with
    | zero =>
      cases j with
      | zero => simp [updateCycle]
      | succ j => simp [updateCycle]
    | succ i =>
      cases j with
      | zero => simp [updateCycle]
      | succ j => simpa [updateCycle] using ih i j

/-- The safety invariant: every never-aborted cycle is the one started by
the latest effect run, and that cycle's captured key is the key of the
current owner name. -/
def enrichInv (s : EnrichSys) : Prop :=
  (∀ i c, s.cycles.get? i = some c → c.aborted = false → s.active = some i) ∧
  (∀ i, s.active = some i →
     ∃ c, s.cycles.get? i = some c ∧ c.key = mkOwnerQueryKey s.ownerName)

theorem enrichInv_init : enrichInv initialEnrichSys := by
  constructor
  · intro i c h
    simp [initialEnrichSys] at h
  · intro i h
    simp [initialEnrichSys] at h

theorem aborted_after_cleanup (s : EnrichSys) (hinv : enrichInv s) :
    ∀ j c,
      (match s.active with
       | some i => abortCycle s.cycles i
       | none => s.cycles).get? j = some c → c.aborted = true := by
  intro j c h
  cases hact : s.active with
  | none =>
    rw [hact] at h
    by_contra hab
    have hf : c.aborted = false := by
      revert hab; cases c.aborted <;> simp
    have := hinv.1 j c h hf
    rw [hact] at this
    exact Option.noConfusion this
  | some i =>
    rw [hact] at h
    simp only [abortCycle] at h
    rw [updateCycle_get?] at h
    by_cases hji : j = i
    · rw [if_pos hji] at h
      cases ho : s.cycles.get? j with
      | none => rw [ho] at h; exact Option.noConfusion h
      | some c0 =>
        rw [ho] at h
        simp only [Option.map_some'] at h
        injection h with h
        rw [← h]
    · rw [if_neg hji] at h
      by_contra hab
      have hf : c.aborted = false := by
        revert hab; cases c.aborted <;> simp
      have := hinv.1 j c h hf
      rw [hact] at this
      injection this with this
      exact hji this.symm

theorem enrichInv_resolve_aux (s : EnrichSys) (i : Nat) (hinv : enrichInv s)
    (lk : OwnerLookupState) :
    enrichInv { ownerName := s.ownerName, active := s.active,
                cycles := finishCycle s.cycles i, lookup := lk } := by
  constructor
  · intro j c h hab
    simp only [finishCycle] at h
    rw [updateCycle_get?] at h
    by_cases hji : j = i
    · rw [if_pos hji] at h
      cases ho : s.cycles.get? j with
      | none => rw [ho] at h; exact Option.noConfusion h
      | some c0 =>
        rw [ho] at h
        simp only [Option.map_some'] at h
        injection h with h
        have hab0 : c0.aborted = false := by rw [← h] at hab; exact hab
        exact hinv.1 j c0 ho hab0
    · rw [if_neg hji] at h
      exact hinv.1 j c h hab
  · intro j h
    obtain ⟨c0, hc0, hkey⟩ := hinv.2 j h
    simp only [finishCycle]
    rw [updateCycle_get?]
    by_cases hji : j = i
    · exact ⟨{ c0 with done := true }, by rw [if_pos hji, hc0]; rfl, hkey⟩
    · exact ⟨c0, by rw [if_neg hji]; exact hc0, hkey⟩

theorem enrichInv_step (s : EnrichSys) (e : EnrichEv) (hinv : enrichInv s) :
    enrichInv (enrichStep s e) := by
  cases e with
  | changeName n =>
    have hall := aborted_after_cleanup s hinv
    unfold enrichStep
    cases hbn : (n == "") with
    | true =>
      simp only [hbn, if_true]
      constructor
      · intro i c h hab
        exact absurd (hall i c h) (by rw [hab]; simp)
      · intro i h
        exact Option.noConfusion h
    | false =>
      simp only [hbn, Bool.false_eq_true, if_false]
      cases hch : cachedHit s.lookup (mkOwnerQueryKey n) with
      | true =>
        simp only [hch, if_true]
        constructor
        · intro i c h hab
          exact absurd (hall i c h) (by rw [hab]; simp)
        · intro i h
          exact Option.noConfusion h
      | false =>
        simp only [hch, Bool.false_eq_true, if_false]
        constructor
        · intro j c h hab
          by_cases hj : j < (match s.active with
              | some i => abortCycle s.cycles i
              | none => s.cycles).length
          · rw [List.get?_append hj] at h
            exact absurd (hall j c h) (by rw [hab]; simp)
          · have hlen :
                ((match s.active with
                  | some i => abortCycle s.cycles i
                  | none => s.cycles) ++
                  [{ key := mkOwnerQueryKey n, aborted := false, done := false }]).length =
                  (match s.active with
                   | some i => abortCycle s.cycles i
                   | none => s.cycles).length + 1 := by
              simp
            rcases Nat.lt_or_ge j ((match s.active with
              | some i => abortCycle s.cycles i
              | none => s.cycles).length + 1) with hj2 | hj2
            · have hjeq : j = (match s.active with
                | some i => abortCycle s.cycles i
                | none => s.cycles).length := by omega
              simp only [hjeq]
            · have : ((match s.active with
                | some i => abortCycle s.cycles i
                | none => s.cycles) ++
                [{ key := mkOwnerQueryKey n, aborted := false, done := false }]).get? j = none := by
                rw [List.get?_eq_none]
                omega
              rw [this] at h
              exact Option.noConfusion h
        · intro j h
          injection h with h
          refine ⟨{ key := mkOwnerQueryKey n, aborted := false, done := false }, ?_, rfl⟩
          rw [← h]
          exact List.get?_concat_length _ _
  | resolve i r =>
    unfold enrichStep
    dsimp only
    cases hget : s.cycles.get? i with
    | none => exact hinv
    | some c =>
      cases hdone : c.done with
      | true =>
        simp only [hdone, if_true]
        exact hinv
      | false =>
        simp only [hdone, Bool.false_eq_true, if_false]
        cases hab : c.aborted with
        | true =>
          simp only [hab, if_true]
          exact enrichInv_resolve_aux s i hinv s.lookup
        | false =>
          simp only [hab, Bool.false_eq_true, if_false]
          exact enrichInv_resolve_aux s i hinv (writeOwnerLookup c.key r)

theorem enrichInv_run (evs : List EnrichEv) : enrichInv (enrichRun evs) := by
  suffices h : ∀ s, enrichInv s → enrichInv (evs.foldl enrichStep s) from
    h _ enrichInv_init
  induction evs with
  | nil => intro s hs; exact hs
  | cons e t ih => intro s hs; exact ih _ (enrichInv_step s e hs)

/-- C10: in every reachable state, whenever a settling lookup cycle applies
a state update at all (it exists, is unsettled, and was never aborted),
the state it writes is the one for the key of the **current** owner name:
no update from a superseded cycle is ever applied, because the cleanup of
the effect run that superseded it aborted it first. -/
theorem ownerEnrichment_no_stale_write (evs : List EnrichEv) (i : Nat) (r : CycleResult)
    (hw : resolveWrites (enrichRun evs) i = true) :
    (enrichStep (enrichRun evs) (.resolve i r)).lookup =
      writeOwnerLookup (mkOwnerQueryKey (enrichRun evs).ownerName) r := by
  have hinv := enrichInv_run evs
  unfold resolveWrites at hw
  cases hget : (enrichRun evs).cycles.get? i with
  | none => rw [hget] at hw; exact Bool.noConfusion hw
  | some c =>
    rw [hget] at hw
    simp only [Bool.and_eq_true, Bool.not_eq_true'] at hw
    obtain ⟨hab, hdone⟩ := hw
    have hact := hinv.1 i c hget hab
    obtain ⟨c', hc', hkey⟩ := hinv.2 i hact
    rw [hget] at hc'
    injection hc' with hc'
    unfold enrichStep
    dsimp only
    rw [hget]
    simp only [hdone, hab, Bool.false_eq_true, if_false]
    rw [← hc'] at hkey
    rw [hkey]

/-- Witness for `ownerEnrichment_no_stale_write`: after one name change,
the settling cycle writes the no-match state for that very name; and in
the claim's rapid-double-change scenario the first cycle can no longer
write at all — its settlement leaves the state untouched. -/
theorem ownerEnrichment_no_stale_write_witness :
    (enrichStep (enrichRun [.changeName "JUAN CARLOS PEREZ LOPEZ"])
        (.resolve 0 .nomatch)).lookup =
      writeOwnerLookup (mkOwnerQueryKey "JUAN CARLOS PEREZ LOPEZ") .nomatch ∧
    resolveWrites
        (enrichRun [.changeName "JUAN CARLOS PEREZ LOPEZ", .changeName "ACME SAC"]) 0 =
      false ∧
    (enrichStep (enrichRun [.changeName "JUAN CARLOS PEREZ LOPEZ", .changeName "ACME SAC"])
        (.resolve 0 (.empresa sampleData))).lookup =
      (enrichRun [.changeName "JUAN CARLOS PEREZ LOPEZ", .changeName "ACME SAC"]).lookup := by
  refine ⟨?_, by decide, by decide⟩
  exact ownerEnrichment_no_stale_write [.changeName "JUAN CARLOS PEREZ LOPEZ"] 0 .nomatch
    (by decide)

end PeruCheck
